import Mathlib

/-!
Shallow embedding of scripts/update_repo_json.py (apollo-ica-helper).

The script resolves a release tag, download URL, release notes and size from
CLI flags with environment-variable fallback, loads repo.json, builds a new
version entry, mutates apps[0] and writes the document back when dirty.
We model the parsed JSON document, the argument/environment resolution and
the whole control flow of main() as a pure function from inputs to an
Outcome describing exit code, stdout lines and the written document.
the current timestamp (date_iso) is passed in as a parameter.
-/

namespace UpdateRepoJson

/-- One element of apps[0].versions, as the script reads and writes it.
The script reads only the fields version and minOSVersion of pre-existing
entries; entries it creates carry exactly the fields below. -/
structure VersionEntry where
  downloadURL : String
  size : Option Int
  version : String
  buildVersion : String
  date : String
  localizedDescription : String
  minOSVersion : Option String
  deriving Repr, DecidableEq

/-- One element of the apps array. Fields the script never touches are kept
opaquely in other (key-value pairs), to state frame properties. -/
structure App where
  version : Option String
  versionDate : Option String
  downloadURL : Option String
  size : Option Int
  versions : Option (List VersionEntry)
  other : List (String × String)
  deriving Repr, DecidableEq

/-- The root JSON document of repo.json: the apps array plus any other
root-level fields, kept opaquely for frame properties. -/
structure RepoDoc where
  apps : Option (List App)
  other : List (String × String)
  deriving Repr, DecidableEq

/-- The parsed CLI arguments (argparse gives none for an omitted flag). -/
structure Args where
  releaseTag : Option String
  catboxUrl : Option String
  releaseNotes : Option String
  size : Option Int
  deriving Repr, DecidableEq

/-- The environment variables the script consults. -/
structure Env where
  RELEASE_TAG : Option String
  CATBOX_URL : Option String
  RELEASE_NOTES : Option String
  deriving Repr, DecidableEq

/-- Python truthiness of an optional string: None and the empty string are
falsy, every other string is truthy. -/
def truthyS : Option String → Bool
  | none => false
  | some s => !(s == "")

/-- Python "a or b" on an optional string a (flag value) and an optional
string b (environment value): b when a is None or empty, else a. -/
def orTruthy : Option String → Option String → Option String
  | some s, b => if s = "" then b else some s
  | none, b => b

/-- release = args.release_tag or os.environ.get('RELEASE_TAG'). -/
def effRelease (args : Args) (env : Env) : Option String :=
  orTruthy args.releaseTag env.RELEASE_TAG

/-- catbox = args.catbox_url or os.environ.get('CATBOX_URL'). -/
def effCatbox (args : Args) (env : Env) : Option String :=
  orTruthy args.catboxUrl env.CATBOX_URL

/-- release_notes = args.release_notes or os.environ.get('RELEASE_NOTES'). -/
def effNotes (args : Args) (env : Env) : Option String :=
  orTruthy args.releaseNotes env.RELEASE_NOTES

/-- new_download = catbox if catbox else app.get('downloadURL') or ''. -/
def newDownloadOf (catbox : Option String) (app : App) : String :=
  if truthyS catbox then catbox.getD "" else (app.downloadURL).getD ""

/-- The localizedDescription the script composes: a fixed header embedding
the release tag, then the release notes when truthy, joined by a blank
line and stripped. -/
def newLocalizedOf (rel : String) (notes : Option String) : String :=
  let header :=
    "This version includes the ApolloICA tweak version: " ++ rel ++
      " patched with Liquid Glass support."
  let parts := if truthyS notes then [header, notes.getD ""] else [header]
  (String.intercalate "\n\n" parts).trim

/-- prev = app['versions'][0] when app.get('versions') is a non-empty
list, else None. -/
def prevOf (app : App) : Option VersionEntry :=
  match app.versions with
  | some (v :: _) => some v
  | _ => none

/-- The minOSVersion the script puts on the entry it builds: copied from
prev only when prev exists and carries a truthy (non-empty) minOSVersion,
mirroring "if prev and prev.get('minOSVersion')". -/
def carriedMinOS : Option VersionEntry → Option String
  | some p =>
    match p.minOSVersion with
    | some m => if m = "" then none else some m
    | none => none
  | none => none

/-- The new_version_obj dict the script builds. -/
def mkNewVersion (rel newDL : String) (sz : Int) (dateIso : String)
    (notes : Option String) (prev : Option VersionEntry) : VersionEntry :=
  { downloadURL := newDL
    size := some sz
    version := rel
    buildVersion := "1"
    date := dateIso
    localizedDescription := newLocalizedOf rel notes
    minOSVersion := carriedMinOS prev }

/-- The three-way update of app['versions'] with its dirty flag:
absent, set to the one-element list; topmost version differs from the
release tag, prepend; topmost version equals the release tag, replace the
first element. Every branch marks dirty. -/
def updateVersions (rel : String) (newObj : VersionEntry) :
    Option (List VersionEntry) → List VersionEntry × Bool
  | none => ([newObj], true)
  | some [] => ([newObj], true)
  | some (v :: t) =>
    if v.version = rel then (newObj :: t, true) else (newObj :: v :: t, true)

/-- Dirty flag contributed by the four top-level field comparisons on app
(version, versionDate, downloadURL, size against their new values). -/
def topFieldsChanged (app : App) (rel dateIso newDL : String) (sz : Int) : Bool :=
  decide (app.version ≠ some rel) ||
  decide (app.versionDate ≠ some dateIso) ||
  decide (app.downloadURL ≠ some newDL) ||
  decide (app.size ≠ some sz)

/-- The observable outcome of one run of main(): either the function
returned a code after printing its stdout lines, having written the given
document when dirty; or the undefined name printf was reached and a
NameError escaped main() before anything was printed or written. -/
inductive Outcome where
  | exit (code : Nat) (stdout : List String) (written : Option RepoDoc)
  | raisedNameError (stdout : List String)
  deriving Repr, DecidableEq

/-- The exit status of the operating-system process: the returned code via
raise SystemExit(main()), or 1 when the NameError escapes and the
interpreter dies with a traceback on stderr. -/
def osExitCode : Outcome → Nat
  | .exit c _ _ => c
  | .raisedNameError _ => 1

/-- The document written to disk by the run, none when the file was left
untouched. -/
def writtenDoc : Outcome → Option RepoDoc
  | .exit _ _ w => w
  | .raisedNameError _ => none

/-- The stdout lines of the run. -/
def stdoutOf : Outcome → List String
  | .exit _ out _ => out
  | .raisedNameError out => out

/-- main() of scripts/update_repo_json.py as a pure function. file is the
parsed repo.json when the file exists (none when missing); dateIso is the
current timestamp the script would render. The control flow follows the
script line by line: existence check, load, release-tag no-op check,
empty-apps check, size check (reaching the undefined printf when the size
flag is absent), building the new entry, the four top-level field updates,
the versions update, and the conditional write. -/
def mainRun (args : Args) (env : Env) (file : Option RepoDoc)
    (dateIso : String) : Outcome :=
  let release := effRelease args env
  let catbox := effCatbox args env
  let releaseNotes := effNotes args env
  let providedSize := args.size
  match file with
  | none => .exit 1 ["repo.json not found at repo.json"] none
  | some data =>
    match release with
    | none => .exit 0 ["RELEASE_TAG not provided; nothing to do"] none
    | some rel =>
      if rel = "" then .exit 0 ["RELEASE_TAG not provided; nothing to do"] none
      else
        match data.apps.getD [] with
        | [] => .exit 1 ["No apps array found in repo.json"] none
        | app :: restApps =>
          let newDL := newDownloadOf catbox app
          match providedSize with
          | none => .raisedNameError []
          | some sz =>
            let prev := prevOf app
            let newObj := mkNewVersion rel newDL sz dateIso releaseNotes prev
            let changed0 := topFieldsChanged app rel dateIso newDL sz
            let vres := updateVersions rel newObj app.versions
            let changed := changed0 || vres.2
            if changed then
              let app' := { app with
                version := some rel
                versionDate := some dateIso
                downloadURL := some newDL
                size := some sz
                versions := some vres.1 }
              let data' := { data with apps := some (app' :: restApps) }
              .exit 0 ["repo.json updated"] (some data')
            else
              .exit 0 ["No changes required for repo.json"] none

/-! Concrete fixtures: the example manifest of the specification, the
arguments of the example invocation, and small variations used to exercise
the branches of main(). -/

/-- The first (and only) version entry of the example input manifest. -/
def exOldEntry : VersionEntry :=
  { downloadURL := "old", size := some 10, version := "1.0", buildVersion := "1"
    date := "2024-01-01T00:00:00+00:00", localizedDescription := "old desc"
    minOSVersion := none }

/-- The single app of the example input manifest. -/
def exApp : App :=
  { version := some "1.0", versionDate := none, downloadURL := some "old"
    size := some 10, versions := some [exOldEntry], other := [] }

/-- The example input manifest of the specification. -/
def exDoc : RepoDoc := { apps := some [exApp], other := [] }

/-- The example invocation: release tag 1.1, url https://x/y, size 999. -/
def exArgs : Args :=
  { releaseTag := some "1.1", catboxUrl := some "https://x/y"
    releaseNotes := none, size := some 999 }

/-- An empty environment: no variables set. -/
def envNone : Env := ⟨none, none, none⟩

/-- An invocation with no flags at all. -/
def noneArgs : Args := ⟨none, none, none, none⟩

/-- The example invocation with the size flag omitted. -/
def exArgsNoSize : Args := { exArgs with size := none }

/-- The example invocation with release tag 1.0 (equal to the topmost
version of the example manifest). -/
def exArgsSameTag : Args := { exArgs with releaseTag := some "1.0" }

/-- The example app with no versions field at all. -/
def exAppNoVersions : App := { exApp with versions := none }

/-- A manifest whose only app has no versions field. -/
def exDocNoVersions : RepoDoc := { apps := some [exAppNoVersions], other := [] }

/-- The example old entry carrying an empty-string minOSVersion field. -/
def exOldEntryEmptyMinOS : VersionEntry := { exOldEntry with minOSVersion := some "" }

/-- The example app whose topmost previous entry carries an empty-string
minOSVersion field. -/
def exAppEmptyMinOS : App := { exApp with versions := some [exOldEntryEmptyMinOS] }

/-- A manifest whose only app's topmost previous entry carries an
empty-string minOSVersion field. -/
def exDocEmptyMinOS : RepoDoc := { apps := some [exAppEmptyMinOS], other := [] }

/-! Helper lemmas shared by the claim theorems. -/

/-- Every branch of the versions update marks the manifest dirty. -/
theorem updateVersions_dirty (rel : String) (o : VersionEntry)
    (ov : Option (List VersionEntry)) : (updateVersions rel o ov).2 = true := by
  rcases ov with _ | ⟨_ | ⟨v, t⟩⟩
  · rfl
  · rfl
  · simp only [updateVersions]
    split <;> rfl

/-- Every branch of the versions update puts the newly built entry first. -/
theorem updateVersions_head (rel : String) (o : VersionEntry)
    (ov : Option (List VersionEntry)) :
    ∃ t, (updateVersions rel o ov).1 = o :: t := by
  rcases ov with _ | ⟨_ | ⟨v, t⟩⟩
  · exact ⟨[], rfl⟩
  · exact ⟨[], rfl⟩
  · simp only [updateVersions]
    split
    · exact ⟨t, rfl⟩
    · exact ⟨v :: t, rfl⟩

/-- On the success path (manifest present, release tag truthy, apps
non-empty, size provided) main() always takes the dirty branch and writes
the document with apps[0] updated in place. -/
theorem mainRun_success (args : Args) (env : Env) (data : RepoDoc)
    (dateIso rel : String) (app : App) (rest : List App) (sz : Int)
    (hrel : effRelease args env = some rel) (hrel' : rel ≠ "")
    (happs : data.apps.getD [] = app :: rest) (hsz : args.size = some sz) :
    mainRun args env (some data) dateIso =
      .exit 0 ["repo.json updated"]
        (some { data with apps := some ({ app with
          version := some rel
          versionDate := some dateIso
          downloadURL := some (newDownloadOf (effCatbox args env) app)
          size := some sz
          versions := some (updateVersions rel
            (mkNewVersion rel (newDownloadOf (effCatbox args env) app) sz
              dateIso (effNotes args env) (prevOf app)) app.versions).1 }
          :: rest) }) := by
  simp only [mainRun, hrel, happs, hsz, updateVersions_dirty, Bool.or_true, if_true]
  rw [if_neg hrel']

/-- When the effective release tag is falsy (absent or empty) and the
manifest file exists, main() is the documented no-op. -/
theorem mainRun_noop_of_release_falsy (args : Args) (env : Env)
    (data : RepoDoc) (dateIso : String)
    (h : truthyS (effRelease args env) = false) :
    mainRun args env (some data) dateIso =
      .exit 0 ["RELEASE_TAG not provided; nothing to do"] none := by
  cases hrel : effRelease args env with
  | none => simp [mainRun, hrel]
  | some s =>
    have hs : s = "" := by
      rw [hrel] at h
      simpa [truthyS] using h

    subst hs
    simp [mainRun, hrel]

/-! Claim theorems. -/

/-- Claim C1: when the size flag is omitted on a run that reaches the size
check, the script calls the undefined name printf, so main() ends in a
NameError: the operating-system exit status is 1 and the manifest is not
written, but no message at all is printed to standard output — the
"Size not provided" text of the claim never reaches stdout. -/
theorem sizeMissing_raises_nameError :
    mainRun exArgsNoSize envNone (some exDoc) "2025-06-01T00:00:00+00:00" =
      .raisedNameError [] ∧
    osExitCode (mainRun exArgsNoSize envNone (some exDoc)
      "2025-06-01T00:00:00+00:00") = 1 ∧
    writtenDoc (mainRun exArgsNoSize envNone (some exDoc)
      "2025-06-01T00:00:00+00:00") = none ∧
    stdoutOf (mainRun exArgsNoSize envNone (some exDoc)
      "2025-06-01T00:00:00+00:00") = [] :=
  ⟨rfl, rfl, rfl, rfl⟩

/-- Claim C2: on the specification's example manifest, invoked with release
tag 1.1, url https://x/y and size 999, the written manifest has app.version
1.1, app.downloadURL https://x/y, app.size 999, a versions list of length
two whose first entry has version 1.1 and whose second entry is the old
first entry, with version 1.0, unchanged. -/
theorem example_run_result (d : String) :
    ∃ a e, mainRun exArgs envNone (some exDoc) d =
        .exit 0 ["repo.json updated"] (some { apps := some [a], other := [] }) ∧
      a.version = some "1.1" ∧ a.downloadURL = some "https://x/y" ∧
      a.size = some 999 ∧ a.versions = some [e, exOldEntry] ∧
      [e, exOldEntry].length = 2 ∧ e.version = "1.1" ∧
      exOldEntry.version = "1.0" :=
  ⟨_, _, rfl, rfl, rfl, rfl, rfl, rfl, rfl, rfl⟩

/-- Witness for C2 at a concrete timestamp. -/
theorem example_run_result_witness :
    ∃ a e, mainRun exArgs envNone (some exDoc) "2025-06-01T00:00:00+00:00" =
        .exit 0 ["repo.json updated"] (some { apps := some [a], other := [] }) ∧
      a.version = some "1.1" ∧ a.downloadURL = some "https://x/y" ∧
      a.size = some 999 ∧ a.versions = some [e, exOldEntry] ∧
      [e, exOldEntry].length = 2 ∧ e.version = "1.1" ∧
      exOldEntry.version = "1.0" :=
  example_run_result "2025-06-01T00:00:00+00:00"

/-- Claim C3: with release tag and size provided and a non-empty versions
list whose first entry's version differs from the release tag, the run
writes apps[0].versions of length old + 1: the new first entry carries the
release tag and the previously existing entries follow unchanged, in their
original order, shifted by one. -/
theorem prepend_when_top_differs (args : Args) (env : Env) (data : RepoDoc)
    (dateIso rel : String) (app : App) (rest : List App) (sz : Int)
    (v : VersionEntry) (vs : List VersionEntry)
    (hrel : effRelease args env = some rel) (hrel' : rel ≠ "")
    (happs : data.apps.getD [] = app :: rest) (hsz : args.size = some sz)
    (hv : app.versions = some (v :: vs)) (hne : v.version ≠ rel) :
    ∃ d' app' newE,
      mainRun args env (some data) dateIso =
        .exit 0 ["repo.json updated"] (some d') ∧
      d'.apps = some (app' :: rest) ∧
      app'.versions = some (newE :: v :: vs) ∧
      newE.version = rel ∧
      (newE :: v :: vs).length = (v :: vs).length + 1 := by
  refine ⟨_, _,
    mkNewVersion rel (newDownloadOf (effCatbox args env) app) sz dateIso
      (effNotes args env) (prevOf app),
    mainRun_success args env data dateIso rel app rest sz hrel hrel' happs hsz,
    rfl, ?_, rfl, rfl⟩
  simp only [hv, updateVersions]
  rw [if_neg hne]

/-- Witness for C3 at the example manifest and invocation. -/
theorem prepend_when_top_differs_witness :
    ∃ d' app' newE,
      mainRun exArgs envNone (some exDoc) "2025-06-01T00:00:00+00:00" =
        .exit 0 ["repo.json updated"] (some d') ∧
      d'.apps = some (app' :: []) ∧
      app'.versions = some (newE :: exOldEntry :: []) ∧
      newE.version = "1.1" ∧
      (newE :: exOldEntry :: []).length = (exOldEntry :: []).length + 1 :=
  prepend_when_top_differs exArgs envNone exDoc "2025-06-01T00:00:00+00:00"
    "1.1" exApp [] 999 exOldEntry [] rfl (by decide) rfl rfl rfl (by decide)

/-- Claim C4: with release tag and size provided and a non-empty versions
list whose first entry's version equals the release tag, the run writes
apps[0].versions of unchanged length: the first element is replaced by the
newly built entry and every other element is unchanged. -/
theorem replace_when_top_equals (args : Args) (env : Env) (data : RepoDoc)
    (dateIso rel : String) (app : App) (rest : List App) (sz : Int)
    (v : VersionEntry) (vs : List VersionEntry)
    (hrel : effRelease args env = some rel) (hrel' : rel ≠ "")
    (happs : data.apps.getD [] = app :: rest) (hsz : args.size = some sz)
    (hv : app.versions = some (v :: vs)) (heq : v.version = rel) :
    ∃ d' app',
      mainRun args env (some data) dateIso =
        .exit 0 ["repo.json updated"] (some d') ∧
      d'.apps = some (app' :: rest) ∧
      app'.versions = some (mkNewVersion rel
        (newDownloadOf (effCatbox args env) app) sz dateIso
        (effNotes args env) (prevOf app) :: vs) ∧
      (mkNewVersion rel (newDownloadOf (effCatbox args env) app) sz dateIso
        (effNotes args env) (prevOf app) :: vs).length = (v :: vs).length := by
  refine ⟨_, _,
    mainRun_success args env data dateIso rel app rest sz hrel hrel' happs hsz,
    rfl, ?_, rfl⟩
  simp only [hv, updateVersions]
  rw [if_pos heq]

/-- Witness for C4: release tag 1.0 equals the example manifest's topmost
version. -/
theorem replace_when_top_equals_witness :
    ∃ d' app',
      mainRun exArgsSameTag envNone (some exDoc) "2025-06-01T00:00:00+00:00" =
        .exit 0 ["repo.json updated"] (some d') ∧
      d'.apps = some (app' :: []) ∧
      app'.versions = some (mkNewVersion "1.0"
        (newDownloadOf (effCatbox exArgsSameTag envNone) exApp) 999
        "2025-06-01T00:00:00+00:00" (effNotes exArgsSameTag envNone)
        (prevOf exApp) :: []) ∧
      (mkNewVersion "1.0" (newDownloadOf (effCatbox exArgsSameTag envNone) exApp)
        999 "2025-06-01T00:00:00+00:00" (effNotes exArgsSameTag envNone)
        (prevOf exApp) :: []).length = (exOldEntry :: []).length :=
  replace_when_top_equals exArgsSameTag envNone exDoc
    "2025-06-01T00:00:00+00:00" "1.0" exApp [] 999 exOldEntry [] rfl
    (by decide) rfl rfl rfl rfl

/-- Claim C5: with release tag and size provided and apps[0].versions
absent or an empty sequence, after the run apps[0].versions contains
exactly one entry, whose version equals the release tag. -/
theorem singleton_when_versions_absent_or_empty (args : Args) (env : Env)
    (data : RepoDoc) (dateIso rel : String) (app : App) (rest : List App)
    (sz : Int)
    (hrel : effRelease args env = some rel) (hrel' : rel ≠ "")
    (happs : data.apps.getD [] = app :: rest) (hsz : args.size = some sz)
    (hv : app.versions = none ∨ app.versions = some []) :
    ∃ d' app' newE,
      mainRun args env (some data) dateIso =
        .exit 0 ["repo.json updated"] (some d') ∧
      d'.apps = some (app' :: rest) ∧
      app'.versions = some [newE] ∧
      newE.version = rel := by
  refine ⟨_, _,
    mkNewVersion rel (newDownloadOf (effCatbox args env) app) sz dateIso
      (effNotes args env) (prevOf app),
    mainRun_success args env data dateIso rel app rest sz hrel hrel' happs hsz,
    rfl, ?_, rfl⟩
  rcases hv with hv | hv <;> simp only [hv, updateVersions]

/-- Witness for C5 at a manifest whose app has no versions field. -/
theorem singleton_when_versions_absent_or_empty_witness :
    ∃ d' app' newE,
      mainRun exArgs envNone (some exDocNoVersions) "2025-06-01T00:00:00+00:00" =
        .exit 0 ["repo.json updated"] (some d') ∧
      d'.apps = some (app' :: []) ∧
      app'.versions = some [newE] ∧
      newE.version = "1.1" :=
  singleton_when_versions_absent_or_empty exArgs envNone exDocNoVersions
    "2025-06-01T00:00:00+00:00" "1.1" exAppNoVersions [] 999 rfl (by decide)
    rfl rfl (Or.inl rfl)

/-- Counterexample for C6: with the release tag supplied neither by flag
nor by environment but the manifest file missing, the process exits with
status 1 and the manifest-not-found message, not the exit-0 no-op the
claim asserts for every such invocation. -/
theorem missingRelease_missingManifest_exit1 :
    effRelease noneArgs envNone = none ∧
    mainRun noneArgs envNone none "2025-06-01T00:00:00+00:00" =
      .exit 1 ["repo.json not found at repo.json"] none ∧
    osExitCode (mainRun noneArgs envNone none "2025-06-01T00:00:00+00:00") ≠ 0 :=
  ⟨rfl, rfl, by decide⟩

/-- Claim C6 as amended: provided the manifest file exists and parses,
every invocation whose release tag is supplied neither by flag nor by the
RELEASE_TAG environment variable is a no-op: the explanatory message is
printed, the process exits with code 0, and the manifest file is not
modified. -/
theorem noop_when_release_missing (args : Args) (env : Env) (data : RepoDoc)
    (dateIso : String) (h : truthyS (effRelease args env) = false) :
    mainRun args env (some data) dateIso =
      .exit 0 ["RELEASE_TAG not provided; nothing to do"] none :=
  mainRun_noop_of_release_falsy args env data dateIso h

/-- Witness for the amended C6 at the example manifest with no flags and
an empty environment. -/
theorem noop_when_release_missing_witness :
    mainRun noneArgs envNone (some exDoc) "2025-06-01T00:00:00+00:00" =
      .exit 0 ["RELEASE_TAG not provided; nothing to do"] none :=
  noop_when_release_missing noneArgs envNone exDoc
    "2025-06-01T00:00:00+00:00" (by decide)

/-- Counterexample for C7: when the previous topmost entry carries the
minOSVersion field with the empty-string value, the newly built first
entry of the written manifest has no minOSVersion at all, instead of the
carried value the claim asserts. -/
theorem minOS_empty_string_dropped :
    (prevOf exAppEmptyMinOS).map VersionEntry.minOSVersion = some (some "") ∧
    ∃ a e, mainRun exArgs envNone (some exDocEmptyMinOS)
        "2025-06-01T00:00:00+00:00" =
        .exit 0 ["repo.json updated"] (some { apps := some [a], other := [] }) ∧
      a.versions = some [e, exOldEntryEmptyMinOS] ∧
      e.minOSVersion = none ∧ e.minOSVersion ≠ some "" :=
  ⟨rfl, _, _, rfl, rfl, rfl, by decide⟩

/-- Claim C7 as amended: the newly built first entry of the written
manifest carries exactly carriedMinOS of the previous topmost entry: the
previous minOSVersion when one existed and was non-empty, and no
minOSVersion when the previous entry was absent, had none, or had the
empty string. -/
theorem minOS_carry_rule (args : Args) (env : Env) (data : RepoDoc)
    (dateIso rel : String) (app : App) (rest : List App) (sz : Int)
    (hrel : effRelease args env = some rel) (hrel' : rel ≠ "")
    (happs : data.apps.getD [] = app :: rest) (hsz : args.size = some sz) :
    ∃ d' app' newE t,
      mainRun args env (some data) dateIso =
        .exit 0 ["repo.json updated"] (some d') ∧
      d'.apps = some (app' :: rest) ∧
      app'.versions = some (newE :: t) ∧
      newE.minOSVersion = carriedMinOS (prevOf app) := by
  obtain ⟨t, ht⟩ := updateVersions_head rel
    (mkNewVersion rel (newDownloadOf (effCatbox args env) app) sz dateIso
      (effNotes args env) (prevOf app)) app.versions
  refine ⟨_, _,
    mkNewVersion rel (newDownloadOf (effCatbox args env) app) sz dateIso
      (effNotes args env) (prevOf app), t,
    mainRun_success args env data dateIso rel app rest sz hrel hrel' happs hsz,
    rfl, ?_, rfl⟩
  rw [ht]

/-- Witness for the amended C7 at the example manifest and invocation. -/
theorem minOS_carry_rule_witness :
    ∃ d' app' newE t,
      mainRun exArgs envNone (some exDoc) "2025-06-01T00:00:00+00:00" =
        .exit 0 ["repo.json updated"] (some d') ∧
      d'.apps = some (app' :: []) ∧
      app'.versions = some (newE :: t) ∧
      newE.minOSVersion = carriedMinOS (prevOf exApp) :=
  minOS_carry_rule exArgs envNone exDoc "2025-06-01T00:00:00+00:00" "1.1"
    exApp [] 999 rfl (by decide) rfl rfl

/-- Claim C8: on the success path only apps[0] is mutated: the written
document keeps every other root-level field and every app after the
first exactly as loaded, and even the untouched fields of apps[0] are
preserved. -/
theorem frame_only_first_app_mutated (args : Args) (env : Env)
    (data : RepoDoc) (dateIso rel : String) (app : App) (rest : List App)
    (sz : Int)
    (hrel : effRelease args env = some rel) (hrel' : rel ≠ "")
    (happs : data.apps.getD [] = app :: rest) (hsz : args.size = some sz) :
    ∃ app',
      mainRun args env (some data) dateIso =
        .exit 0 ["repo.json updated"]
          (some { apps := some (app' :: rest), other := data.other }) ∧
      app'.other = app.other := by
  exact ⟨_,
    mainRun_success args env data dateIso rel app rest sz hrel hrel' happs hsz,
    rfl⟩

/-- Witness for C8 at the example manifest and invocation. -/
theorem frame_only_first_app_mutated_witness :
    ∃ app',
      mainRun exArgs envNone (some exDoc) "2025-06-01T00:00:00+00:00" =
        .exit 0 ["repo.json updated"]
          (some { apps := some (app' :: []), other := exDoc.other }) ∧
      app'.other = exApp.other :=
  frame_only_first_app_mutated exArgs envNone exDoc
    "2025-06-01T00:00:00+00:00" "1.1" exApp [] 999 rfl (by decide) rfl rfl

/-- Claim C9: whenever all preconditions pass (manifest present, release
tag truthy, apps non-empty, size provided) the dirty flag is set by the
versions update, so the manifest is always rewritten with the updated
message; the no-changes-required branch is never the outcome. -/
theorem success_always_writes (args : Args) (env : Env) (data : RepoDoc)
    (dateIso rel : String) (app : App) (rest : List App) (sz : Int)
    (hrel : effRelease args env = some rel) (hrel' : rel ≠ "")
    (happs : data.apps.getD [] = app :: rest) (hsz : args.size = some sz) :
    ∃ d',
      mainRun args env (some data) dateIso =
        .exit 0 ["repo.json updated"] (some d') ∧
      stdoutOf (mainRun args env (some data) dateIso) ≠
        ["No changes required for repo.json"] := by
  refine ⟨_,
    mainRun_success args env data dateIso rel app rest sz hrel hrel' happs hsz,
    ?_⟩
  rw [mainRun_success args env data dateIso rel app rest sz hrel hrel' happs hsz]
  simp [stdoutOf]

/-- Witness for C9 at the example manifest and invocation. -/
theorem success_always_writes_witness :
    ∃ d',
      mainRun exArgs envNone (some exDoc) "2025-06-01T00:00:00+00:00" =
        .exit 0 ["repo.json updated"] (some d') ∧
      stdoutOf (mainRun exArgs envNone (some exDoc)
        "2025-06-01T00:00:00+00:00") ≠ ["No changes required for repo.json"] :=
  success_always_writes exArgs envNone exDoc "2025-06-01T00:00:00+00:00"
    "1.1" exApp [] 999 rfl (by decide) rfl rfl

/-- Claim C10: the manifest-existence check runs before the release-tag
check: with the manifest missing the process exits 1 even when the
release tag is absent, and the exit-0 no-op for a missing release tag
happens only when the manifest file exists and parses. -/
theorem manifest_check_precedes_release_check (args : Args) (env : Env)
    (data : RepoDoc) (dateIso : String)
    (h : truthyS (effRelease args env) = false) :
    mainRun args env none dateIso =
      .exit 1 ["repo.json not found at repo.json"] none ∧
    mainRun args env (some data) dateIso =
      .exit 0 ["RELEASE_TAG not provided; nothing to do"] none :=
  ⟨rfl, mainRun_noop_of_release_falsy args env data dateIso h⟩

/-- Witness for C10 with no flags, an empty environment, and the example
manifest for the present-file half. -/
theorem manifest_check_precedes_release_check_witness :
    mainRun noneArgs envNone none "2025-06-01T00:00:00+00:00" =
      .exit 1 ["repo.json not found at repo.json"] none ∧
    mainRun noneArgs envNone (some exDoc) "2025-06-01T00:00:00+00:00" =
      .exit 0 ["RELEASE_TAG not provided; nothing to do"] none :=
  manifest_check_precedes_release_check noneArgs envNone exDoc
    "2025-06-01T00:00:00+00:00" (by decide)

end UpdateRepoJson
